import Mathlib

/-!
Verification of the camera-control widget (`CameraVisualizer`).

The interaction controller (pointer handlers mutating the
(azimuth, elevation, distance) triple) is embedded over `ℚ`:
per-event arithmetic uses the source's literal constants, and
JavaScript's `Math.round` is the round-half-up function
`round x = ⌊x + 1/2⌋`, which is Mathlib's `round`.

The derived 3D geometry and the 3D→2D projection are embedded over `ℝ`
with `Real.sin`/`Real.cos` standing for `Math.sin`/`Math.cos`.
-/

namespace CameraWidget

/-- The parameter triple (`types.ts`, interface `CameraParams`),
polymorphic so the controller can use `ℚ` and the geometry `ℝ`. -/
structure CameraParams (α : Type) where
  azimuth : α
  elevation : α
  distance : α
deriving DecidableEq

/-- The drag-target union type (line 15 of the component):
`'azimuth' | 'elevation' | 'zoom' | 'orbit'`; `none` of the
`Option` below is the `null` case. -/
inductive DragTarget where
  | azimuth
  | elevation
  | zoom
  | orbit
deriving DecidableEq

/-- `const rotSens = 0.8` (line 79). -/
def rotSens : ℚ := 0.8

/-- Lines 83-84 (and their duplicate 99-100): the single-step wrap
`if (newAz >= 360) newAz -= 360; if (newAz < 0) newAz += 360;`.
The two `if`s are sequential: the second tests the updated value. -/
def wrapAz (v : ℚ) : ℚ :=
  let v1 := if 360 ≤ v then v - 360 else v
  if v1 < 0 then v1 + 360 else v1

/-- Line 89 (and its duplicate 103): `Math.max(-85, Math.min(85, newEl))`. -/
def clampEl (v : ℚ) : ℚ := max (-85) (min 85 v)

/-- Lines 95 and 118: `Math.round(newDist * 100) / 100`. -/
def round2 (v : ℚ) : ℚ := ((round (v * 100) : ℤ) : ℚ) / 100

/-- Lines 82-85: the azimuth-drag branch of `handleMouseMove`. -/
def azimuthRule (p : CameraParams ℚ) (deltaX : ℚ) : CameraParams ℚ :=
  { p with azimuth := ((round (wrapAz (p.azimuth + deltaX * rotSens)) : ℤ) : ℚ) }

/-- Lines 88-90: the elevation-drag branch of `handleMouseMove`. -/
def elevationRule (p : CameraParams ℚ) (deltaY : ℚ) : CameraParams ℚ :=
  { p with elevation := ((round (clampEl (p.elevation - deltaY * rotSens)) : ℤ) : ℚ) }

/-- Lines 93-95: the zoom-drag branch of `handleMouseMove`. -/
def zoomDragRule (p : CameraParams ℚ) (deltaY : ℚ) : CameraParams ℚ :=
  { p with distance := round2 (max 0.5 (min 2.0 (p.distance + deltaY * 0.005))) }

/-- Lines 98-109: the orbit branch of `handleMouseMove`, which inlines
the azimuth computation (98-100) and the elevation computation (102-103)
and publishes both in one snapshot. -/
def orbitRule (p : CameraParams ℚ) (deltaX deltaY : ℚ) : CameraParams ℚ :=
  { p with
      azimuth := ((round (wrapAz (p.azimuth + deltaX * rotSens)) : ℤ) : ℚ),
      elevation := ((round (clampEl (p.elevation - deltaY * rotSens)) : ℤ) : ℚ) }

/-- Lines 116-118: the wheel zoom computation of `handleWheel`
(`distance + e.deltaY * 0.001`, clamp, round to 2 decimals). -/
def wheelRule (p : CameraParams ℚ) (deltaY : ℚ) : CameraParams ℚ :=
  { p with distance := round2 (max 0.5 (min 2.0 (p.distance + deltaY * 0.001))) }

/-- Controller state: `dragTarget` (line 15), `lastMousePos` (line 16),
and the host-owned triple.  The widget never stores the triple itself;
`params` here models the host's copy, which the host feeds back into the
widget after every callback invocation (the `params` prop). -/
structure WState where
  dragTarget : Option DragTarget
  lastX : ℚ
  lastY : ℚ
  params : CameraParams ℚ
deriving DecidableEq

/-- Lines 62-68: `handleMouseDown`.  Returns early (no state change)
when no `onUpdate` callback is registered; otherwise records the target
and the pointer position.  It never publishes an update. -/
def handleMouseDown (onUpdate : Bool) (s : WState) (target : DragTarget)
    (ex ey : ℚ) : WState :=
  if onUpdate then { s with dragTarget := some target, lastX := ex, lastY := ey }
  else s

/-- Lines 70-111: `handleMouseMove`.  Returns early when no drag is
active or no callback is registered (in that case `lastMousePos` is not
touched).  Otherwise computes the deltas against the recorded position,
updates the recorded position, dispatches on the drag target, and
publishes the new triple (the second component; `none` = callback not
invoked).  The published triple is also written back into `params`,
modelling the host echoing it into the `params` prop. -/
def handleMouseMove (onUpdate : Bool) (s : WState) (ex ey : ℚ) :
    WState × Option (CameraParams ℚ) :=
  match s.dragTarget with
  | none => (s, none)
  | some target =>
    if onUpdate then
      let deltaX := ex - s.lastX
      let deltaY := ey - s.lastY
      let p :=
        match target with
        | DragTarget.azimuth => azimuthRule s.params deltaX
        | DragTarget.elevation => elevationRule s.params deltaY
        | DragTarget.zoom => zoomDragRule s.params deltaY
        | DragTarget.orbit => orbitRule s.params deltaX deltaY
      ({ s with lastX := ex, lastY := ey, params := p }, some p)
    else (s, none)

/-- Line 113: `handleMouseUp = () => setDragTarget(null)`. -/
def handleMouseUp (s : WState) : WState := { s with dragTarget := none }

/-- Lines 114-119: `handleWheel`.  The new distance is computed
unconditionally, but `onUpdate && onUpdate(...)` publishes it only when a
callback is registered; `dragTarget` and `lastMousePos` are untouched. -/
def handleWheel (onUpdate : Bool) (s : WState) (deltaY : ℚ) :
    WState × Option (CameraParams ℚ) :=
  let p := wheelRule s.params deltaY
  if onUpdate then ({ s with params := p }, some p) else (s, none)

/-- The pointer/wheel events the widget handles. -/
inductive WEvent where
  | mouseDown (target : DragTarget) (ex ey : ℚ)
  | mouseMove (ex ey : ℚ)
  | mouseUp
  | mouseLeave
  | wheel (deltaY : ℚ)

/-- Event dispatch as wired in the JSX (lines 260-262, 267-268):
`onMouseMove={handleMouseMove}`, `onMouseUp={handleMouseUp}`,
`onMouseLeave={handleMouseUp}` (leave shares the up handler), the orbit
layer's `onWheel={handleWheel}`, and the various `onMouseDown` sites.
The second component is the published update, `none` when the callback
is not invoked by the event. -/
def step (onUpdate : Bool) (s : WState) (e : WEvent) :
    WState × Option (CameraParams ℚ) :=
  match e with
  | WEvent.mouseDown t ex ey => (handleMouseDown onUpdate s t ex ey, none)
  | WEvent.mouseMove ex ey => handleMouseMove onUpdate s ex ey
  | WEvent.mouseUp => (handleMouseUp s, none)
  | WEvent.mouseLeave => (handleMouseUp s, none)
  | WEvent.wheel dy => handleWheel onUpdate s dy

/-- The drag targets actually passed to `handleMouseDown` by the four
`onMouseDown` wirings: the orbit background layer (line 267), the
azimuth handle (line 308), the elevation handle (line 324) and the
camera body (line 338). -/
def wiredTargets : List DragTarget :=
  [DragTarget.orbit, DragTarget.azimuth, DragTarget.elevation, DragTarget.elevation]

/-- An event that the widget's own interface can generate: any event,
except that a pointer-down must carry one of the wired targets. -/
def firesFromUI : WEvent → Prop
  | WEvent.mouseDown t _ _ => t ∈ wiredTargets
  | _ => True

/-- The widget's initial interaction state: `dragTarget` is `null`
(line 15) and `lastMousePos` is `{x: 0, y: 0}` (line 16); the triple is
whatever the host supplies. -/
def initState (p : CameraParams ℚ) : WState := ⟨none, 0, 0, p⟩

/-- States reachable from an initial state through events the widget's
interface can generate. -/
inductive UIReachable (onUpdate : Bool) : WState → Prop where
  | init (p : CameraParams ℚ) : UIReachable onUpdate (initState p)
  | next {s : WState} (e : WEvent) : UIReachable onUpdate s → firesFromUI e →
      UIReachable onUpdate (step onUpdate s e).1

/-! Derived 3D geometry (lines 123-145) and the 3D→2D projection
(lines 26-59), over `ℝ`. -/

noncomputable section

/-- Line 123: `const rad = (deg) => deg * Math.PI / 180`. -/
def rad (deg : ℝ) : ℝ := deg * Real.pi / 180

/-- Line 131: `const ringRadius = 50 + (distance * 25)`. -/
def ringRadius (distance : ℝ) : ℝ := 50 + distance * 25

/-- A 3D point. -/
structure Vec3 where
  x : ℝ
  y : ℝ
  z : ℝ

/-- Lines 134-136: the camera's 3D position `(camX, camY, camZ)`. -/
def camPos (p : CameraParams ℝ) : Vec3 :=
  ⟨ringRadius p.distance * Real.sin (rad p.azimuth) * Real.cos (rad p.elevation),
   ringRadius p.distance * Real.sin (rad p.elevation),
   ringRadius p.distance * Real.cos (rad p.azimuth) * Real.cos (rad p.elevation)⟩

/-- Lines 139-141: the azimuth handle `(azHandleX, azHandleY, azHandleZ)`. -/
def azHandle (p : CameraParams ℝ) : Vec3 :=
  ⟨ringRadius p.distance * Real.sin (rad p.azimuth), 0,
   ringRadius p.distance * Real.cos (rad p.azimuth)⟩

/-- Lines 143-145: the elevation handle `(elHandleX, elHandleY, elHandleZ)
= (camX, camY, camZ)`. -/
def elHandle (p : CameraParams ℝ) : Vec3 := camPos p

/-- The view configuration that `project` closes over (lines 27-35, 49):
pitch and yaw of the editor camera, the screen scale factor, the
perspective focal distance `depth`, and the viewport center `(cx, cy)`.
The source fixes these as constants; the spec's contract (§4.1) treats
them as the function's fixed configuration, so they are parameters here
and `sourceConfig` below is the source's instantiation. -/
structure ViewConfig where
  viewPitch : ℝ
  viewYaw : ℝ
  scaleFactor : ℝ
  depth : ℝ
  cx : ℝ
  cy : ℝ

/-- The result record of `project` (lines 53-58). -/
structure Projected where
  x : ℝ
  y : ℝ
  scale : ℝ
  z : ℝ

/-- Lines 38-59: the 3D point → 2D screen projection. -/
def project (cfg : ViewConfig) (x y z : ℝ) : Projected :=
  let x1 := x * Real.cos cfg.viewYaw - z * Real.sin cfg.viewYaw
  let z1 := x * Real.sin cfg.viewYaw + z * Real.cos cfg.viewYaw
  let y2 := y * Real.cos cfg.viewPitch - z1 * Real.sin cfg.viewPitch
  let z2 := y * Real.sin cfg.viewPitch + z1 * Real.cos cfg.viewPitch
  let x2 := x1
  let s := cfg.depth / (cfg.depth + z2 * (-1))
  ⟨cfg.cx + x2 * cfg.scaleFactor / 50 * s,
   cfg.cy - y2 * cfg.scaleFactor / 50 * s,
   s, z2⟩

/-- The source's view configuration: `viewPitch = 20 * Math.PI / 180`,
`viewYaw = 45 * Math.PI / 180`, `scaleFactor = 130` (lines 33-35),
`depth = 800` (line 49), `cx = 600/2`, `cy = 400/2` (lines 27-30). -/
def sourceConfig : ViewConfig :=
  ⟨20 * Real.pi / 180, 45 * Real.pi / 180, 130, 800, 300, 200⟩

end

/-! Helper lemmas about round-half-up and the clamps. -/

theorem le_round_of_le {x : ℚ} {z : ℤ} (h : (z : ℚ) ≤ x) : z ≤ round x := by
  rw [round_eq]
  exact Int.le_floor.2 (by linarith)

theorem round_le_of_le {x : ℚ} {z : ℤ} (h : x ≤ (z : ℚ)) : round x ≤ z := by
  rw [round_eq]
  have hlt : ⌊x + 1 / 2⌋ < z + 1 := Int.floor_lt.2 (by push_cast; linarith)
  omega

theorem wrapAz_mem {v : ℚ} (h2 : -360 ≤ v) (h3 : v < 720) :
    0 ≤ wrapAz v ∧ wrapAz v < 360 := by
  unfold wrapAz
  dsimp only
  split_ifs <;> constructor <;> linarith

theorem clampEl_mem (v : ℚ) : -85 ≤ clampEl v ∧ clampEl v ≤ 85 :=
  ⟨le_max_left _ _, max_le (by norm_num) (min_le_left _ _)⟩

theorem round2_clamped (v : ℚ) :
    0.5 ≤ round2 (max 0.5 (min 2.0 v)) ∧ round2 (max 0.5 (min 2.0 v)) ≤ 2 ∧
    ∃ k : ℤ, round2 (max 0.5 (min 2.0 v)) = (k : ℚ) * 0.01 := by
  set c := max 0.5 (min 2.0 v) with hc
  have h1 : (0.5 : ℚ) ≤ c := le_max_left _ _
  have h2 : c ≤ 2 := max_le (by norm_num) ((min_le_left _ _).trans (by norm_num))
  have hlo : (50 : ℤ) ≤ round (c * 100) := le_round_of_le (by push_cast; linarith)
  have hhi : round (c * 100) ≤ (200 : ℤ) := round_le_of_le (by push_cast; linarith)
  have hlo' : (50 : ℚ) ≤ (round (c * 100) : ℚ) := by exact_mod_cast hlo
  have hhi' : ((round (c * 100) : ℤ) : ℚ) ≤ 200 := by exact_mod_cast hhi
  unfold round2
  refine ⟨by norm_num; linarith, by linarith, round (c * 100), ?_⟩
  ring

/-- C1 counterexample: the claim "the published azimuth lies in [0,360)
for every starting azimuth in [0,360) and every deltaX" is false on the
code.  From azimuth 359 a drag with deltaX = 1 gives 359.8, which the
single-step wrap leaves alone and `Math.round` then lifts to 360, outside
[0,360).  And from azimuth 0 a drag with deltaX = 1000 gives 800, which a
single subtraction of 360 only brings to 440. -/
theorem azimuth_drag_bound_counterexample :
    (handleMouseMove true ⟨some DragTarget.azimuth, 0, 0, ⟨359, 0, 1⟩⟩ 1 0).2 =
        some ⟨360, 0, 1⟩ ∧
    ¬ ((360 : ℚ) < 360) ∧
    (handleMouseMove true ⟨some DragTarget.azimuth, 0, 0, ⟨0, 0, 1⟩⟩ 1000 0).2 =
        some ⟨440, 0, 1⟩ := by
  refine ⟨?_, by norm_num, ?_⟩ <;>
    norm_num [handleMouseMove, azimuthRule, wrapAz, rotSens,
      CameraParams.mk.injEq, round_eq]

/-- C1 (amended): for a starting azimuth in [0,360) and any deltaX whose
raw result azimuth + deltaX·0.8 lies in [-360,720) (so a single-step
correction suffices), the azimuth-drag update publishes the rounded
single-step-wrapped value, the wrapped value lies in [0,360), and the
published whole-degree azimuth lies in [0,360] — it can be exactly 360
when the wrapped value rounds up across the boundary. -/
theorem azimuth_drag_wraps (s : WState) (ex ey : ℚ)
    (ht : s.dragTarget = some DragTarget.azimuth)
    (h0 : 0 ≤ s.params.azimuth) (h1 : s.params.azimuth < 360)
    (h2 : -360 ≤ s.params.azimuth + (ex - s.lastX) * rotSens)
    (h3 : s.params.azimuth + (ex - s.lastX) * rotSens < 720) :
    (handleMouseMove true s ex ey).2 = some (azimuthRule s.params (ex - s.lastX)) ∧
    0 ≤ wrapAz (s.params.azimuth + (ex - s.lastX) * rotSens) ∧
    wrapAz (s.params.azimuth + (ex - s.lastX) * rotSens) < 360 ∧
    0 ≤ (azimuthRule s.params (ex - s.lastX)).azimuth ∧
    (azimuthRule s.params (ex - s.lastX)).azimuth ≤ 360 := by
  obtain ⟨hw0, hw1⟩ := wrapAz_mem h2 h3
  refine ⟨by simp [handleMouseMove, ht], hw0, hw1, ?_, ?_⟩
  · show (0 : ℚ) ≤ ((round (wrapAz _) : ℤ) : ℚ)
    have : (0 : ℤ) ≤ round (wrapAz (s.params.azimuth + (ex - s.lastX) * rotSens)) :=
      le_round_of_le (by exact_mod_cast hw0)
    exact_mod_cast this
  · show ((round (wrapAz _) : ℤ) : ℚ) ≤ 360
    have : round (wrapAz (s.params.azimuth + (ex - s.lastX) * rotSens)) ≤ (360 : ℤ) :=
      round_le_of_le (by push_cast; linarith)
    exact_mod_cast this

/-- Witness for C1 (amended), at the boundary example from the spec:
azimuth 359 with deltaX = 2.5 (so deltaX·0.8 = +2) wraps to 1. -/
theorem azimuth_drag_wraps_witness :
    0 ≤ (azimuthRule (⟨359, 0, 1⟩ : CameraParams ℚ) (2.5 - 0)).azimuth ∧
    (azimuthRule (⟨359, 0, 1⟩ : CameraParams ℚ) (2.5 - 0)).azimuth ≤ 360 ∧
    (azimuthRule (⟨359, 0, 1⟩ : CameraParams ℚ) (2.5 - 0)).azimuth = 1 := by
  have h := azimuth_drag_wraps ⟨some DragTarget.azimuth, 0, 0, ⟨359, 0, 1⟩⟩ 2.5 0
    rfl (by norm_num) (by norm_num) (by norm_num [rotSens]) (by norm_num [rotSens])
  exact ⟨h.2.2.2.1, h.2.2.2.2,
    by norm_num [azimuthRule, wrapAz, rotSens, round_eq]⟩

/-- C2: any elevation-affecting update (an elevation drag or an orbit
drag) publishes `round(clamp(elevation - deltaY * 0.8))` with the clamp
to [-85,85], and the published elevation lies in [-85,85] inclusive. -/
theorem elevation_update_clamped (s : WState) (ex ey : ℚ)
    (h0 : -85 ≤ s.params.elevation) (h1 : s.params.elevation ≤ 85)
    (ht : s.dragTarget = some DragTarget.elevation ∨
          s.dragTarget = some DragTarget.orbit) :
    ∃ q, (handleMouseMove true s ex ey).2 = some q ∧
      q.elevation =
        ((round (clampEl (s.params.elevation - (ey - s.lastY) * rotSens)) : ℤ) : ℚ) ∧
      -85 ≤ q.elevation ∧ q.elevation ≤ 85 := by
  obtain ⟨hc0, hc1⟩ := clampEl_mem (s.params.elevation - (ey - s.lastY) * rotSens)
  have hlo : (-85 : ℤ) ≤ round (clampEl (s.params.elevation - (ey - s.lastY) * rotSens)) :=
    le_round_of_le (by push_cast; linarith)
  have hhi : round (clampEl (s.params.elevation - (ey - s.lastY) * rotSens)) ≤ (85 : ℤ) :=
    round_le_of_le (by push_cast; linarith)
  rcases ht with ht | ht
  · refine ⟨elevationRule s.params (ey - s.lastY), by simp [handleMouseMove, ht],
      rfl, ?_, ?_⟩
    · simp only [elevationRule]; exact_mod_cast hlo
    · simp only [elevationRule]; exact_mod_cast hhi
  · refine ⟨orbitRule s.params (ex - s.lastX) (ey - s.lastY),
      by simp [handleMouseMove, ht], rfl, ?_, ?_⟩
    · simp only [orbitRule]; exact_mod_cast hlo
    · simp only [orbitRule]; exact_mod_cast hhi

/-- Witness for C2: from elevation 80, a strongly negative deltaY
(deltaY = -100) drives the published elevation to exactly 85. -/
theorem elevation_update_clamped_witness :
    ∃ q, (handleMouseMove true ⟨some DragTarget.elevation, 0, 0, ⟨0, 80, 1⟩⟩
            0 (-100)).2 = some q ∧
      -85 ≤ q.elevation ∧ q.elevation ≤ 85 ∧ q.elevation = 85 := by
  obtain ⟨q, hq, he, hl, hh⟩ := elevation_update_clamped
    ⟨some DragTarget.elevation, 0, 0, ⟨0, 80, 1⟩⟩ 0 (-100)
    (by norm_num) (by norm_num) (Or.inl rfl)
  refine ⟨q, hq, hl, hh, ?_⟩
  rw [he]
  norm_num [clampEl, rotSens, round_eq]

/-- C3: for a starting distance in [0.5,2.0], both zoom paths — the drag
branch (`distance + deltaY * 0.005`) and the wheel handler
(`distance + wheelDeltaY * 0.001`) — publish the clamp to [0.5,2.0]
rounded to 2 decimal places, and the published distance lies in
[0.50,2.00] and is an integer multiple of 0.01. -/
theorem distance_update_clamped (s : WState) (ex ey dy : ℚ)
    (h0 : 0.5 ≤ s.params.distance) (h1 : s.params.distance ≤ 2) :
    (s.dragTarget = some DragTarget.zoom →
      ∃ q, (handleMouseMove true s ex ey).2 = some q ∧
        q.distance = round2 (max 0.5 (min 2.0 (s.params.distance + (ey - s.lastY) * 0.005))) ∧
        0.5 ≤ q.distance ∧ q.distance ≤ 2 ∧ ∃ k : ℤ, q.distance = (k : ℚ) * 0.01) ∧
    (∃ q, (handleWheel true s dy).2 = some q ∧
        q.distance = round2 (max 0.5 (min 2.0 (s.params.distance + dy * 0.001))) ∧
        0.5 ≤ q.distance ∧ q.distance ≤ 2 ∧ ∃ k : ℤ, q.distance = (k : ℚ) * 0.01) := by
  constructor
  · intro ht
    obtain ⟨hb0, hb1, hmul⟩ := round2_clamped (s.params.distance + (ey - s.lastY) * 0.005)
    exact ⟨zoomDragRule s.params (ey - s.lastY), by simp [handleMouseMove, ht],
      rfl, hb0, hb1, hmul⟩
  · obtain ⟨hb0, hb1, hmul⟩ := round2_clamped (s.params.distance + dy * 0.001)
    exact ⟨wheelRule s.params dy, by simp [handleWheel], rfl, hb0, hb1, hmul⟩

/-- Witness for C3: a zoom drag with deltaY = 7 from distance 1 and a
wheel event with deltaY = 100 from distance 1 both publish an in-range
hundredth-of-a-unit distance. -/
theorem distance_update_clamped_witness :
    (∃ q, (handleMouseMove true ⟨some DragTarget.zoom, 0, 0, ⟨0, 0, 1⟩⟩ 0 7).2 = some q ∧
       0.5 ≤ q.distance ∧ q.distance ≤ 2 ∧ ∃ k : ℤ, q.distance = (k : ℚ) * 0.01) ∧
    (∃ q, (handleWheel true ⟨some DragTarget.zoom, 0, 0, ⟨0, 0, 1⟩⟩ 100).2 = some q ∧
       0.5 ≤ q.distance ∧ q.distance ≤ 2 ∧ ∃ k : ℤ, q.distance = (k : ℚ) * 0.01) := by
  obtain ⟨hdrag, hwheel⟩ := distance_update_clamped
    ⟨some DragTarget.zoom, 0, 0, ⟨0, 0, 1⟩⟩ 0 7 100 (by norm_num) (by norm_num)
  obtain ⟨q, hq, _, hb0, hb1, hmul⟩ := hdrag rfl
  obtain ⟨q2, hq2, _, hb0w, hb1w, hmulw⟩ := hwheel
  exact ⟨⟨q, hq, hb0, hb1, hmul⟩, ⟨q2, hq2, hb0w, hb1w, hmulw⟩⟩

/-- C4: the orbit branch applies both the azimuth rule and the elevation
rule from the same single gesture with the same (deltaX, deltaY), leaving
distance unchanged; concretely an orbit drag with deltaX = 10, deltaY = 0
from (azimuth 0, elevation 0) publishes azimuth round(10·0.8) = 8 and
elevation 0. -/
theorem orbit_applies_both_rules :
    (∀ (p : CameraParams ℚ) (lx ly ex ey : ℚ),
      (handleMouseMove true ⟨some DragTarget.orbit, lx, ly, p⟩ ex ey).2 =
          some (orbitRule p (ex - lx) (ey - ly)) ∧
      (orbitRule p (ex - lx) (ey - ly)).azimuth = (azimuthRule p (ex - lx)).azimuth ∧
      (orbitRule p (ex - lx) (ey - ly)).elevation = (elevationRule p (ey - ly)).elevation ∧
      (orbitRule p (ex - lx) (ey - ly)).distance = p.distance) ∧
    (handleMouseMove true ⟨some DragTarget.orbit, 0, 0, ⟨0, 0, 1⟩⟩ 10 0).2 =
        some ⟨8, 0, 1⟩ := by
  constructor
  · intro p lx ly ex ey
    exact ⟨by simp [handleMouseMove], rfl, rfl, rfl⟩
  · norm_num [handleMouseMove, orbitRule, wrapAz, clampEl, rotSens,
      CameraParams.mk.injEq, round_eq]

/-- C8: from any dragging state, pointer-up or pointer-leave of the
widget's region transitions the controller to Idle (`dragTarget = none`),
and every pointer-move while Idle leaves the state untouched and invokes
no update callback — in particular every pointer-move after the release
publishes nothing. -/
theorem release_ends_drag (onUpdate : Bool) (s : WState) (t : DragTarget)
    (ht : s.dragTarget = some t) :
    (step onUpdate s WEvent.mouseUp).1.dragTarget = none ∧
    (step onUpdate s WEvent.mouseLeave).1.dragTarget = none ∧
    (∀ (s' : WState), s'.dragTarget = none →
      ∀ ex ey, step onUpdate s' (WEvent.mouseMove ex ey) = (s', none)) ∧
    (∀ ex ey, step onUpdate (step onUpdate s WEvent.mouseUp).1
        (WEvent.mouseMove ex ey) = ((step onUpdate s WEvent.mouseUp).1, none)) := by
  have hidle : ∀ (s' : WState), s'.dragTarget = none →
      ∀ ex ey, step onUpdate s' (WEvent.mouseMove ex ey) = (s', none) := by
    intro s' hs' ex ey
    simp [step, handleMouseMove, hs']
  exact ⟨rfl, rfl, hidle, fun ex ey => hidle _ rfl ex ey⟩

/-- Witness for C8: releasing out of a concrete azimuth drag lands in
Idle and a subsequent pointer-move is a published-nothing no-op. -/
theorem release_ends_drag_witness :
    (step true ⟨some DragTarget.azimuth, 0, 0, ⟨0, 0, 1⟩⟩ WEvent.mouseUp).1.dragTarget
        = none ∧
    step true (step true ⟨some DragTarget.azimuth, 0, 0, ⟨0, 0, 1⟩⟩ WEvent.mouseUp).1
        (WEvent.mouseMove 5 7) =
      ((step true ⟨some DragTarget.azimuth, 0, 0, ⟨0, 0, 1⟩⟩ WEvent.mouseUp).1, none) := by
  have h := release_ends_drag true ⟨some DragTarget.azimuth, 0, 0, ⟨0, 0, 1⟩⟩
    DragTarget.azimuth rfl
  exact ⟨h.1, h.2.2.2 5 7⟩

/-- C9: with no update callback registered, every mutating gesture is a
no-op: a pointer-down over any target starts no drag, and pointer-moves
and wheel events leave the whole state (including the triple) unchanged
and publish no update. -/
theorem no_callback_noop (s : WState) (t : DragTarget) (ex ey dy : ℚ) :
    step false s (WEvent.mouseDown t ex ey) = (s, none) ∧
    step false s (WEvent.mouseMove ex ey) = (s, none) ∧
    step false s (WEvent.wheel dy) = (s, none) := by
  refine ⟨by simp [step, handleMouseDown], ?_, by simp [step, handleWheel]⟩
  cases hdt : s.dragTarget <;> simp [step, handleMouseMove, hdt]

/-- The no-zoom invariant is preserved by every event the widget's
interface can generate: no wired pointer-down carries the zoom target,
and no other event sets a drag target. -/
theorem ui_step_no_zoom {onUpdate : Bool} {s : WState} {e : WEvent}
    (h : s.dragTarget ≠ some DragTarget.zoom) (hui : firesFromUI e) :
    (step onUpdate s e).1.dragTarget ≠ some DragTarget.zoom := by
  cases e with
  | mouseDown t ex ey =>
    simp only [firesFromUI, wiredTargets, List.mem_cons, List.not_mem_nil,
      or_false] at hui
    cases onUpdate with
    | false => simpa [step, handleMouseDown] using h
    | true =>
      rcases hui with rfl | rfl | rfl | rfl
      all_goals simp [step, handleMouseDown]
  | mouseMove ex ey =>
    cases hdt : s.dragTarget with
    | none => simp [step, handleMouseMove, hdt]
    | some t =>
      cases onUpdate with
      | false => simpa [step, handleMouseMove, hdt] using h
      | true =>
        simp only [step, handleMouseMove, hdt]
        simpa [hdt] using h
  | mouseUp => simp [step, handleMouseUp]
  | mouseLeave => simp [step, handleMouseUp]
  | wheel dy =>
    cases onUpdate <;> simpa [step, handleWheel] using h

/-- C10: in every state reachable through the widget's own interface the
drag target is never `zoom` (the four `onMouseDown` wirings pass only
`orbit`, `azimuth` or `elevation`), so the drag-based zoom branch never
executes and a pointer-move can only publish an update whose distance
equals the current one. -/
theorem zoom_drag_unreachable (onUpdate : Bool) (s : WState)
    (hr : UIReachable onUpdate s) :
    DragTarget.zoom ∉ wiredTargets ∧
    s.dragTarget ≠ some DragTarget.zoom ∧
    ∀ (ex ey : ℚ) (s' : WState) (q : CameraParams ℚ),
      step onUpdate s (WEvent.mouseMove ex ey) = (s', some q) →
      q.distance = s.params.distance := by
  have hnz : s.dragTarget ≠ some DragTarget.zoom := by
    induction hr with
    | init p => simp [initState]
    | next e _ hui ih => exact ui_step_no_zoom ih hui
  refine ⟨by decide, hnz, ?_⟩
  intro ex ey s' q hstep
  cases hdt : s.dragTarget with
  | none => simp [step, handleMouseMove, hdt] at hstep
  | some t =>
    cases onUpdate with
    | false => simp [step, handleMouseMove, hdt] at hstep
    | true =>
      cases t with
      | zoom => exact absurd hdt hnz
      | azimuth =>
        simp [step, handleMouseMove, hdt] at hstep
        rw [← hstep.2, azimuthRule]
      | elevation =>
        simp [step, handleMouseMove, hdt] at hstep
        rw [← hstep.2, elevationRule]
      | orbit =>
        simp [step, handleMouseMove, hdt] at hstep
        rw [← hstep.2, orbitRule]

/-- Witness for C10: the invariant instantiated at a freshly initialised
widget. -/
theorem zoom_drag_unreachable_witness :
    DragTarget.zoom ∉ wiredTargets ∧
    (initState ⟨0, 0, 1⟩).dragTarget ≠ some DragTarget.zoom := by
  have h := zoom_drag_unreachable true (initState ⟨0, 0, 1⟩)
    (UIReachable.init ⟨0, 0, 1⟩)
  exact ⟨h.1, h.2.1⟩

/-- C5: the derived geometry places the camera at spherical coordinates
(R·sin az·cos el, R·sin el, R·cos az·cos el) with ring radius
R = 50 + distance·25 (baseRadius + distance·distanceGain); the azimuth
handle sits at (R·sin az, 0, R·cos az), i.e. on the horizontal ring at
the same ring radius whatever the elevation; the elevation handle
coincides with the camera; and at azimuth 0 the camera sits in the
x = 0 plane — on the +Z (front) axis itself once elevation is 0,
the ring radius being positive for any nonnegative distance. -/
theorem spherical_geometry (p : CameraParams ℝ) :
    camPos p = ⟨(50 + p.distance * 25) * Real.sin (rad p.azimuth) * Real.cos (rad p.elevation),
                (50 + p.distance * 25) * Real.sin (rad p.elevation),
                (50 + p.distance * 25) * Real.cos (rad p.azimuth) * Real.cos (rad p.elevation)⟩ ∧
    (azHandle p).y = 0 ∧
    (azHandle p).x ^ 2 + (azHandle p).z ^ 2 = ringRadius p.distance ^ 2 ∧
    elHandle p = camPos p ∧
    (p.azimuth = 0 → (camPos p).x = 0 ∧
      (p.elevation = 0 → camPos p = ⟨0, 0, ringRadius p.distance⟩)) ∧
    (0 ≤ p.distance → 0 < ringRadius p.distance) := by
  refine ⟨rfl, rfl, ?_, rfl, ?_, ?_⟩
  · simp only [azHandle]
    linear_combination (ringRadius p.distance) ^ 2 *
      Real.sin_sq_add_cos_sq (rad p.azimuth)
  · intro ha
    refine ⟨by simp [camPos, ha, rad], ?_⟩
    intro he
    simp [camPos, ha, he, rad, Vec3.mk.injEq]
  · intro hd
    simp only [ringRadius]
    linarith

/-- Witness for C5: at (azimuth 0, elevation 0, distance 1) the camera
sits on the +Z axis at the (positive) ring radius. -/
theorem spherical_geometry_witness :
    camPos ⟨0, 0, 1⟩ = ⟨0, 0, ringRadius 1⟩ ∧ 0 < ringRadius 1 := by
  have h := spherical_geometry ⟨0, 0, 1⟩
  exact ⟨(h.2.2.2.2.1 rfl).2 rfl, h.2.2.2.2.2 (by norm_num)⟩

/-- C6: for every view configuration with a nonzero focal distance,
`project(0,0,0)` returns the viewport center with perspective scale 1
and depth 0: the origin always projects to center at unit scale. -/
theorem project_origin (cfg : ViewConfig) (hd : cfg.depth ≠ 0) :
    project cfg 0 0 0 = ⟨cfg.cx, cfg.cy, 1, 0⟩ := by
  simp [project, Projected.mk.injEq, div_self hd]

/-- Witness for C6: at the source's view configuration the origin
projects to the fixed center (300, 200) at scale 1. -/
theorem project_origin_witness :
    project sourceConfig 0 0 0 = ⟨300, 200, 1, 0⟩ := by
  have hd : sourceConfig.depth ≠ 0 := by norm_num [sourceConfig]
  exact project_origin sourceConfig hd

/-- C7 counterexample: the perspective divisor is NOT never zero.  At the
real input (0, 800/sin(20·π/180), 0) the view-space depth is exactly 800
and the divisor `depth + viewZ·(-1)` of line 50 vanishes. -/
theorem project_divisor_zero_counterexample :
    sourceConfig.depth +
      (project sourceConfig 0 (800 / Real.sin (20 * Real.pi / 180)) 0).z * (-1) = 0 := by
  have h1 : (0 : ℝ) < 20 * Real.pi / 180 := by positivity
  have h2 : 20 * Real.pi / 180 < Real.pi := by linarith [Real.pi_pos]
  have hs : Real.sin (20 * Real.pi / 180) ≠ 0 :=
    ne_of_gt (Real.sin_pos_of_pos_of_lt_pi h1 h2)
  simp [project, sourceConfig]
  field_simp

/-- C7 (amended): in the real-valued model `project` is total by
construction — every input yields a result record with no side effects —
but the perspective divisor can vanish; the division is genuine (i.e.
scale · divisor recovers the focal distance 800) exactly on the inputs
where the divisor is nonzero. -/
theorem project_divisor_characterised (x y z : ℝ) :
    (project sourceConfig x y z).scale *
        (sourceConfig.depth + (project sourceConfig x y z).z * (-1)) =
      sourceConfig.depth ↔
    sourceConfig.depth + (project sourceConfig x y z).z * (-1) ≠ 0 := by
  by_cases hzero :
      sourceConfig.depth + (project sourceConfig x y z).z * (-1) = 0
  · constructor
    · intro habs
      rw [hzero, mul_zero] at habs
      norm_num [sourceConfig] at habs
    · intro hne
      exact absurd hzero hne
  · constructor
    · intro _
      exact hzero
    · intro _
      have hs : (project sourceConfig x y z).scale =
          sourceConfig.depth /
            (sourceConfig.depth + (project sourceConfig x y z).z * (-1)) := rfl
      rw [hs, div_mul_cancel₀ _ hzero]

end CameraWidget
